import Mathlib

/-!
Verification development for the fastgst tax-lookup site modules.

JavaScript strings are embedded as lists of natural numbers, one entry per
UTF-16 code unit. Stateful environment reads (current epoch seconds, the
current UTC date rendered as a decimal integer) are passed as explicit
parameters. The browser base64 primitives btoa and atob are embedded as
functions on code-unit lists; btoa fails (models the InvalidCharacterError
throw) when a code unit exceeds 255.
-/

deriving instance DecidableEq for Except

namespace RPAK

/-- Code units of an ASCII Lean string, used to write literals compactly. -/
def strCodes (s : String) : List Nat := s.toList.map Char.toNat

/-- JS String.startsWith restricted to code-unit lists. -/
def listStartsWith : List Nat → List Nat → Bool
  | [], _ => true
  | _ :: _, [] => false
  | a :: as, b :: bs => a == b && listStartsWith as bs

/-- JS str.split on the pipe character (code 124); always returns at least one part. -/
def splitPipe : List Nat → List (List Nat)
  | [] => [[]]
  | c :: rest =>
    if c = 124 then [] :: splitPipe rest
    else
      match splitPipe rest with
      | p :: ps => (c :: p) :: ps
      | [] => [[c]]

/-- JS parts.join on the pipe character. -/
def joinPipe : List (List Nat) → List Nat
  | [] => []
  | [x] => x
  | x :: xs => x ++ 124 :: joinPipe xs

/-- Decimal digit rendering of a natural number, most significant first, with
fuel (the number itself is enough fuel since the value shrinks by a factor of
ten per step). Mirrors JS String(n) for nonnegative integers. -/
def natToStrAux : Nat → Nat → List Nat
  | 0, _ => []
  | fuel + 1, n => if n = 0 then [] else natToStrAux fuel (n / 10) ++ [n % 10 + 48]

/-- JS String(n) for a nonnegative integer n, as code units. -/
def natToString (n : Nat) : List Nat := if n = 0 then [48] else natToStrAux n n

/-- JS s.padStart(2, "0"): left-pad with the zero digit up to length two. -/
def padTwoZero (s : List Nat) : List Nat := List.replicate (2 - s.length) 48 ++ s

/-- Digit-code test for 0-9 (codes 48 to 57). -/
def isDigitCode (c : Nat) : Bool := 48 ≤ c && c ≤ 57

/-- JS whitespace characters recognised by trim and by parseInt skipping. -/
def isJsWs (c : Nat) : Bool :=
  c = 9 || c = 10 || c = 11 || c = 12 || c = 13 || c = 32 || c = 160 ||
  c = 0x1680 || (0x2000 ≤ c && c ≤ 0x200A) || c = 0x2028 || c = 0x2029 ||
  c = 0x202F || c = 0x205F || c = 0x3000 || c = 0xFEFF

/-- Value of a most-significant-first list of digit codes. -/
def digsVal (s : List Nat) : Nat := s.foldl (fun a c => a * 10 + (c - 48)) 0

/-- Longest run of leading decimal digits, as a nonnegative integer; none
when there is no leading digit. -/
def parseDigits (t : List Nat) : Option Int :=
  let ds := t.takeWhile isDigitCode
  if ds.isEmpty then none else some (digsVal ds)

/-- Sign handling of parseInt once leading whitespace is gone. -/
def parseSigned : List Nat → Option Int
  | [] => none
  | c :: rest =>
    if c = 45 then (parseDigits rest).map (fun v => -v)
    else if c = 43 then parseDigits rest
    else parseDigits (c :: rest)

/-- JS parseInt(s, 10): skip leading whitespace, read an optional sign, then
the longest run of leading decimal digits; none models NaN. -/
def parseIntTen (s : List Nat) : Option Int :=
  parseSigned (s.dropWhile isJsWs)

/-- XOR of every code unit with the constant 42: the body shared by the
source functions xorEncode and xorDecode. -/
def xorCodes (s : List Nat) : List Nat := s.map (fun c => c ^^^ 42)

/-- Base64 alphabet: the character code for a six-bit value. -/
def b64Char (n : Nat) : Nat :=
  if n < 26 then 65 + n
  else if n < 52 then 71 + n
  else if n < 62 then n - 4
  else if n = 62 then 43
  else 47

/-- Inverse base64 alphabet lookup; none on a character outside the alphabet. -/
def b64CharDec (c : Nat) : Option Nat :=
  if 65 ≤ c ∧ c ≤ 90 then some (c - 65)
  else if 97 ≤ c ∧ c ≤ 122 then some (c - 97 + 26)
  else if 48 ≤ c ∧ c ≤ 57 then some (c - 48 + 52)
  else if c = 43 then some 62
  else if c = 47 then some 63
  else none

/-- Standard base64 of a byte list (the encoding btoa performs once every
code unit is known to fit in a byte). -/
def b64Encode : List Nat → List Nat
  | [] => []
  | [a] => [b64Char (a / 4), b64Char (a % 4 * 16), 61, 61]
  | [a, b] => [b64Char (a / 4), b64Char (a % 4 * 16 + b / 16), b64Char (b % 16 * 4), 61]
  | a :: b :: c :: rest =>
    b64Char (a / 4) :: b64Char (a % 4 * 16 + b / 16) ::
      b64Char (b % 16 * 4 + c / 64) :: b64Char (c % 64) :: b64Encode rest

/-- Browser atob: decode base64 four characters at a time, allowing a padded
or unpadded final chunk; none models the InvalidCharacterError throw. -/
def b64Decode : List Nat → Option (List Nat)
  | [] => some []
  | c1 :: c2 :: c3 :: c4 :: rest =>
    match b64CharDec c1, b64CharDec c2 with
    | some s1, some s2 =>
      if c3 = 61 then
        if c4 = 61 ∧ rest = [] then some [s1 * 4 + s2 / 16] else none
      else
        match b64CharDec c3 with
        | some s3 =>
          if c4 = 61 then
            if rest = [] then some [s1 * 4 + s2 / 16, s2 % 16 * 16 + s3 / 4] else none
          else
            match b64CharDec c4 with
            | some s4 =>
              (b64Decode rest).map
                (fun bs => (s1 * 4 + s2 / 16) :: (s2 % 16 * 16 + s3 / 4) :: (s3 % 4 * 64 + s4) :: bs)
            | none => none
        | none => none
    | _, _ => none
  | [c1, c2] =>
    match b64CharDec c1, b64CharDec c2 with
    | some s1, some s2 => some [s1 * 4 + s2 / 16]
    | _, _ => none
  | [c1, c2, c3] =>
    match b64CharDec c1, b64CharDec c2, b64CharDec c3 with
    | some s1, some s2, some s3 => some [s1 * 4 + s2 / 16, s2 % 16 * 16 + s3 / 4]
    | _, _, _ => none
  | [_] => none

/-- Browser btoa: every code unit must fit in a byte, otherwise the call
throws (modelled as none); on success, standard base64. -/
def btoa (s : List Nat) : Option (List Nat) :=
  if s.all (fun c => decide (c < 256)) then some (b64Encode s) else none

/-- Source encodeToBase64: XOR with 42, then btoa. -/
def encodeToBase64 (s : List Nat) : Option (List Nat) := btoa (xorCodes s)

/-- Source decodeFromBase64: atob, then XOR with 42. -/
def decodeFromBase64 (s : List Nat) : Option (List Nat) := (b64Decode s).map xorCodes

/-- Code units of the literal RPAK_ marker. -/
def rpakTag : List Nat := [82, 80, 65, 75, 95]

/-- Errors generate can throw. -/
inductive GenErr where
  | invalidValidity
  | invalidPayload
  | invalidCharacter
deriving DecidableEq

/-- Source generate, for a natural-number validity and a string payload, with
the two environment reads (current epoch seconds and the current UTC date as
the DDMMYYYY decimal integer) passed explicitly. -/
def generate (validityInSeconds : Nat) (payload : List Nat) (epochNow dateCode : Nat) :
    Except GenErr (List Nat) :=
  if validityInSeconds < 1 then .error .invalidValidity
  else if payload.length = 0 then .error .invalidPayload
  else
    let combined := epochNow + dateCode
    let formattedValidity := padTwoZero (natToString validityInSeconds)
    let prefixedValue := formattedValidity ++ natToString combined
    let dataString := prefixedValue ++ 124 :: payload
    let reversed := dataString.reverse
    match encodeToBase64 reversed with
    | none => .error .invalidCharacter
    | some base64Encoded => .ok (rpakTag ++ base64Encoded)

/-- Result record of validate; failure paths populate error and leave the
verdict fields absent, mirroring the two record shapes the source returns. -/
structure ValidateResult where
  valid : Bool
  error : Option String := none
  validity : Option Int := none
  keyEpoch : Option Int := none
  currentEpoch : Option Nat := none
  timeDifference : Option Int := none
  payload : Option (List Nat) := none
  expired : Option Bool := none
  notYetValid : Option Bool := none
deriving DecidableEq

/-- Failure record: valid false plus an error string. -/
def mkFail (msg : String) : ValidateResult := { valid := false, error := some msg }

/-- Source validate, with the environment reads passed explicitly. The
try/catch around the body is embedded by handling the fallible atob decode;
the caught-exception message is fixed text standing for the thrown one. -/
def validate (rpakKey : List Nat) (epochNow dateCode : Nat) : ValidateResult :=
  if ¬ listStartsWith rpakTag rpakKey then
    mkFail "Invalid RPAK format: Missing RPAK_ prefix"
  else
    let base64Part := rpakKey.drop 5
    match decodeFromBase64 base64Part with
    | none => mkFail "Validation error: failed to decode base64"
    | some decodedRaw =>
      let decoded := decodedRaw.reverse
      match splitPipe decoded with
      | p0 :: p1 :: ps =>
        let prefixedValue := p0
        let payload := joinPipe (p1 :: ps)
        match parseIntTen (prefixedValue.take 2) with
        | none => mkFail "Invalid RPAK format: Cannot parse validity"
        | some validityInSeconds =>
          match parseIntTen (prefixedValue.drop 2) with
          | none => mkFail "Invalid RPAK format: Cannot parse combined value"
          | some combinedValue =>
            let keyEpoch : Int := combinedValue - dateCode
            let timeDifference : Int := (epochNow : Int) - keyEpoch
            { valid := decide (0 ≤ timeDifference ∧ timeDifference ≤ validityInSeconds)
              validity := some validityInSeconds
              keyEpoch := some keyEpoch
              currentEpoch := some epochNow
              timeDifference := some timeDifference
              payload := some payload
              expired := some (decide (validityInSeconds < timeDifference))
              notYetValid := some (decide (timeDifference < 0)) }
      | _ => mkFail "Invalid RPAK format: Missing pipe delimiter"

/-- The token generate produces on its success path, written out. -/
def mkToken (v : Nat) (p : List Nat) (e d : Nat) : List Nat :=
  rpakTag ++ b64Encode (xorCodes
    ((padTwoZero (natToString v) ++ natToString (e + d) ++ 124 :: p).reverse))

/-- JavaScript runtime values, as far as the argument checks of generate
inspect them: a number (none standing for NaN, otherwise its exact rational
value), a string of code units, or any other kind of value. -/
inductive JSValue where
  | num (x : Option ℚ)
  | str (s : List Nat)
  | boolean (b : Bool)
  | undef
  | nullv
  | obj
deriving DecidableEq

/-- JS comparison x less-than one on a number; NaN compares false. -/
def jsNumLtOne : Option ℚ → Bool
  | none => false
  | some q => decide (q < 1)

/-- Argument validation of generate (the two typeof guards at its head) over
arbitrary JavaScript values: the thrown InvalidArgument message, or none when
both checks pass. -/
def generateArgCheck (validityInSeconds payload : JSValue) : Option String :=
  match validityInSeconds with
  | .num x =>
    if jsNumLtOne x then some "Validity must be a positive number"
    else
      match payload with
      | .str s => if s.length = 0 then some "Payload must be a non-empty string" else none
      | _ => some "Payload must be a non-empty string"
  | _ => some "Validity must be a positive number"

/-- Token string claimed by the specification: the RPAK_ marker followed by
the base64 of the XOR-42 of the reversed concatenation of the two-digit
validity, the decimal rendering of epochNow plus dateCode, a pipe, and the
payload. Written from the wording of the claim, to be compared with the
source function generate. -/
def specTokenC1 (validitySeconds : Nat) (payload : List Nat) (epochNow dateCode : Nat) :
    List Nat :=
  strCodes "RPAK_" ++ b64Encode (xorCodes
    ((padTwoZero (natToString validitySeconds) ++ natToString (epochNow + dateCode) ++
      strCodes "|" ++ payload).reverse))

end RPAK

namespace TaxLookupAPI

open RPAK (strCodes isJsWs)

/-- JS str.trim on code units. -/
def jsTrim (s : List Nat) : List Nat :=
  ((s.dropWhile isJsWs).reverse.dropWhile isJsWs).reverse

/-- Uppercase hexadecimal digit code for a value below sixteen. -/
def hexDigit (n : Nat) : Nat := if n < 10 then 48 + n else 55 + n

/-- Bytes of a code unit in UTF-8 (surrogate pairing is not modelled; no claim
touches the non-ASCII branch). -/
def utf8Units (c : Nat) : List Nat :=
  if c < 128 then [c]
  else if c < 2048 then [192 + c / 64, 128 + c % 64]
  else [224 + c / 4096, 128 + c / 64 % 64, 128 + c % 64]

/-- Characters encodeURIComponent leaves unescaped. -/
def isUriUnescaped (c : Nat) : Bool :=
  (65 ≤ c && c ≤ 90) || (97 ≤ c && c ≤ 122) || (48 ≤ c && c ≤ 57) ||
  c = 45 || c = 95 || c = 46 || c = 33 || c = 126 || c = 42 || c = 39 || c = 40 || c = 41

/-- JS encodeURIComponent on code units. -/
def encodeURIComponentCU (s : List Nat) : List Nat :=
  (s.map (fun c =>
    if isUriUnescaped c then [c]
    else ((utf8Units c).map (fun b => [37, hexDigit (b / 16), hexDigit (b % 16)])).flatten)).flatten

/-- The fixed service base URL. -/
def apiBaseUrl : List Nat := strCodes "https://api.taxlookup.fastgst.in"

/-- Regex test for a 4-to-8-digit code (the pattern both per-code methods apply). -/
def hsnFormatOk (s : List Nat) : Bool :=
  4 ≤ s.length && s.length ≤ 8 && s.all RPAK.isDigitCode

/-- Source searchByKeywords up to the point a request would be issued: the
InvalidArgument throw, or the URL the GET would target. -/
def searchByKeywords (query : List Nat) : Except String (List Nat) :=
  if query = [] ∨ (jsTrim query).length = 0 then
    .error "Search query cannot be empty"
  else
    .ok (apiBaseUrl ++ strCodes "/search/hsn?query=" ++ encodeURIComponentCU (jsTrim query))

/-- Source getHierarchy up to the point a request would be issued. -/
def getHierarchy (hsnCode : List Nat) : Except String (List Nat) :=
  if hsnCode = [] ∨ (jsTrim hsnCode).length = 0 then
    .error "HSN code cannot be empty"
  else if ¬ hsnFormatOk (jsTrim hsnCode) then
    .error "Invalid HSN code format. Must be 4-8 digits."
  else
    .ok (apiBaseUrl ++ strCodes "/search/hsn/" ++ jsTrim hsnCode)

/-- Source getTaxInfo up to the point a request would be issued. -/
def getTaxInfo (hsnCode : List Nat) : Except String (List Nat) :=
  if hsnCode = [] ∨ (jsTrim hsnCode).length = 0 then
    .error "HSN code cannot be empty"
  else if ¬ hsnFormatOk (jsTrim hsnCode) then
    .error "Invalid HSN code format. Must be 4-8 digits."
  else
    .ok (apiBaseUrl ++ strCodes "/search/hsn/" ++ jsTrim hsnCode ++ strCodes "/taxes")

/-- Meta record of a service response: the request id plus the remaining
fields, kept as an opaque ordered association list. -/
structure ApiMeta where
  request_id : List Nat
  rest : List (List Nat × List Nat)
deriving DecidableEq

/-- Parsed JSON body of a successful underlying call: the opaque data part
and the meta record. -/
structure ApiResponse where
  data : List Nat
  meta : ApiMeta
deriving DecidableEq

/-- Merged metadata: every field of the hierarchy meta plus the added
tax_request_id field, as the source object spread builds it. -/
structure CompleteMeta where
  base : ApiMeta
  tax_request_id : List Nat
deriving DecidableEq

/-- Merged record getCompleteHSNInfo resolves with. -/
structure CompleteHSNInfo where
  success : Bool
  hierarchy : List Nat
  taxInfo : List Nat
  meta : CompleteMeta
deriving DecidableEq

/-- Source getCompleteHSNInfo, with the two network outcomes passed as
parameters: the two sub-calls run under one Promise.all join, so the result
is a function of the pair of outcomes; a rejection of either leg is caught
and rethrown wrapped in the fixed message. -/
def getCompleteHSNInfo (hier tax : Except String ApiResponse) :
    Except String CompleteHSNInfo :=
  match hier with
  | .error e => .error ("Failed to get complete HSN info: " ++ e)
  | .ok h =>
    match tax with
    | .error e => .error ("Failed to get complete HSN info: " ++ e)
    | .ok t =>
      .ok { success := true
            hierarchy := h.data
            taxInfo := t.data
            meta := { base := h.meta, tax_request_id := t.meta.request_id } }

end TaxLookupAPI

namespace RPAK

theorem natToStrAux_zero (fuel : Nat) : natToStrAux fuel 0 = [] := by
  cases fuel <;> simp [natToStrAux]

theorem natToStrAux_digits (fuel : Nat) :
    ∀ n, n ≤ fuel → ∀ c ∈ natToStrAux fuel n, 48 ≤ c ∧ c ≤ 57 := by
  induction fuel with
  | zero => intro n hn c hc; simp [natToStrAux] at hc
  | succ f ih =>
    intro n hn c hc
    by_cases h0 : n = 0
    · simp [natToStrAux, h0] at hc
    · have hlt : n / 10 < n := Nat.div_lt_self (Nat.pos_of_ne_zero h0) (by norm_num)
      simp only [natToStrAux, if_neg h0, List.mem_append, List.mem_singleton] at hc
      rcases hc with hc | hc
      · exact ih (n / 10) (by omega) c hc
      · have : n % 10 < 10 := Nat.mod_lt _ (by norm_num)
        omega

theorem digsVal_append_one (xs : List Nat) (c : Nat) :
    digsVal (xs ++ [c]) = digsVal xs * 10 + (c - 48) := by
  simp [digsVal, List.foldl_append]

theorem digsVal_natToStrAux (fuel : Nat) :
    ∀ n, n ≤ fuel → digsVal (natToStrAux fuel n) = n := by
  induction fuel with
  | zero => intro n hn; have : n = 0 := by omega
            simp [this, natToStrAux, digsVal]
  | succ f ih =>
    intro n hn
    by_cases h0 : n = 0
    · simp [natToStrAux, h0, digsVal]
    · have hlt : n / 10 < n := Nat.div_lt_self (Nat.pos_of_ne_zero h0) (by norm_num)
      rw [natToStrAux, if_neg h0, digsVal_append_one, ih (n / 10) (by omega)]
      omega

theorem natToStrAux_ne_nil (fuel n : Nat) (h1 : 0 < n) (h : n ≤ fuel) :
    natToStrAux fuel n ≠ [] := by
  cases fuel with
  | zero => omega
  | succ f =>
    rw [natToStrAux, if_neg (by omega)]
    simp

theorem natToString_digits (n : Nat) : ∀ c ∈ natToString n, 48 ≤ c ∧ c ≤ 57 := by
  by_cases h0 : n = 0
  · simp [natToString, h0]
  · rw [natToString, if_neg h0]
    exact natToStrAux_digits n n le_rfl

theorem digsVal_natToString (n : Nat) : digsVal (natToString n) = n := by
  by_cases h0 : n = 0
  · simp [natToString, h0, digsVal]
  · rw [natToString, if_neg h0]
    exact digsVal_natToStrAux n n le_rfl

theorem natToString_ne_nil (n : Nat) : natToString n ≠ [] := by
  by_cases h0 : n = 0
  · simp [natToString, h0]
  · rw [natToString, if_neg h0]
    exact natToStrAux_ne_nil n n (Nat.pos_of_ne_zero h0) le_rfl

theorem isJsWs_of_digit (c : Nat) (h1 : 48 ≤ c) (h2 : c ≤ 57) : isJsWs c = false := by
  simp only [isJsWs, Bool.or_eq_false_iff, decide_eq_false_iff_not, Bool.and_eq_false_iff]
  omega

theorem isDigitCode_of_digit (c : Nat) (h1 : 48 ≤ c) (h2 : c ≤ 57) : isDigitCode c = true := by
  simp only [isDigitCode, Bool.and_eq_true, decide_eq_true_eq]
  omega

theorem takeWhile_of_all {p : Nat → Bool} :
    ∀ l : List Nat, (∀ c ∈ l, p c = true) → l.takeWhile p = l := by
  intro l h
  exact List.takeWhile_eq_self_iff.mpr h

theorem parseDigits_all_digits (l : List Nat) (hne : l ≠ [])
    (h : ∀ c ∈ l, 48 ≤ c ∧ c ≤ 57) : parseDigits l = some ((digsVal l : Nat) : Int) := by
  rw [parseDigits]
  rw [takeWhile_of_all l (fun c hc => isDigitCode_of_digit c (h c hc).1 (h c hc).2)]
  simp [hne]

theorem parseIntTen_all_digits (l : List Nat) (hne : l ≠ [])
    (h : ∀ c ∈ l, 48 ≤ c ∧ c ≤ 57) : parseIntTen l = some ((digsVal l : Nat) : Int) := by
  obtain ⟨c, t, rfl⟩ : ∃ c t, l = c :: t := by
    cases l with
    | nil => exact absurd rfl hne
    | cons c t => exact ⟨c, t, rfl⟩
  have hc := h c (by simp)
  rw [parseIntTen, List.dropWhile_cons, if_neg (by simp [isJsWs_of_digit c hc.1 hc.2])]
  rw [parseSigned, if_neg (by omega), if_neg (by omega)]
  exact parseDigits_all_digits _ hne h

theorem parseIntTen_natToString (n : Nat) :
    parseIntTen (natToString n) = some ((n : Nat) : Int) := by
  rw [parseIntTen_all_digits _ (natToString_ne_nil n) (natToString_digits n),
    digsVal_natToString]

end RPAK

namespace RPAK

theorem natToStrAux_small (fuel n : Nat) (h1 : 0 < n) (h2 : n < 10) (h : n ≤ fuel) :
    natToStrAux fuel n = [n + 48] := by
  cases fuel with
  | zero => omega
  | succ f =>
    rw [natToStrAux, if_neg (by omega)]
    rw [Nat.div_eq_of_lt h2, natToStrAux_zero, Nat.mod_eq_of_lt h2]
    simp

theorem natToStrAux_two_digit (fuel n : Nat) (h1 : 10 ≤ n) (h2 : n < 100) (h : n ≤ fuel) :
    natToStrAux fuel n = [n / 10 + 48, n % 10 + 48] := by
  cases fuel with
  | zero => omega
  | succ f =>
    rw [natToStrAux, if_neg (by omega)]
    rw [natToStrAux_small f (n / 10) (by omega) (by omega) (by omega)]
    simp

theorem padTwoZero_natToString (v : Nat) (h1 : 1 ≤ v) (h2 : v ≤ 99) :
    padTwoZero (natToString v) = [v / 10 + 48, v % 10 + 48] := by
  by_cases hv : v < 10
  · rw [natToString, if_neg (by omega), natToStrAux_small v v (by omega) hv le_rfl]
    rw [padTwoZero]
    simp only [List.length_singleton]
    rw [Nat.div_eq_of_lt hv, Nat.mod_eq_of_lt hv]
    simp [List.replicate]
  · rw [natToString, if_neg (by omega), natToStrAux_two_digit v v (by omega) (by omega) le_rfl]
    rw [padTwoZero]
    simp [List.replicate]

theorem splitPipe_ne_nil : ∀ l : List Nat, splitPipe l ≠ [] := by
  intro l
  cases l with
  | nil => simp [splitPipe]
  | cons c rest =>
    rw [splitPipe]
    by_cases hc : c = 124
    · simp [hc]
    · rw [if_neg hc]
      cases h : splitPipe rest with
      | nil => simp
      | cons p ps => simp

theorem splitPipe_append_pipe (a b : List Nat) (ha : ∀ c ∈ a, c ≠ 124) :
    splitPipe (a ++ 124 :: b) = a :: splitPipe b := by
  induction a with
  | nil => simp [splitPipe]
  | cons c a ih =>
    have hc : c ≠ 124 := ha c (by simp)
    rw [List.cons_append, splitPipe, if_neg hc]
    rw [ih (fun x hx => ha x (by simp [hx]))]

theorem joinPipe_cons_cons (x y : List Nat) (ys : List (List Nat)) :
    joinPipe (x :: y :: ys) = x ++ 124 :: joinPipe (y :: ys) := by
  rw [joinPipe]
  simp

theorem joinPipe_splitPipe : ∀ l : List Nat, joinPipe (splitPipe l) = l := by
  intro l
  induction l with
  | nil => simp [splitPipe, joinPipe]
  | cons c rest ih =>
    rw [splitPipe]
    by_cases hc : c = 124
    · rw [if_pos hc]
      obtain ⟨p, ps, hps⟩ : ∃ p ps, splitPipe rest = p :: ps := by
        cases h : splitPipe rest with
        | nil => exact absurd h (splitPipe_ne_nil rest)
        | cons p ps => exact ⟨p, ps, rfl⟩
      rw [hps]
      rw [joinPipe_cons_cons]
      rw [← hps, ih, hc]
      simp
    · rw [if_neg hc]
      obtain ⟨p, ps, hps⟩ : ∃ p ps, splitPipe rest = p :: ps := by
        cases h : splitPipe rest with
        | nil => exact absurd h (splitPipe_ne_nil rest)
        | cons p ps => exact ⟨p, ps, rfl⟩
      rw [hps]
      cases ps with
      | nil =>
        rw [joinPipe]
        have : joinPipe [p] = p := by rw [joinPipe]
        rw [hps, this] at ih
        rw [ih]
      | cons q qs =>
        rw [joinPipe_cons_cons]
        rw [hps, joinPipe_cons_cons] at ih
        simp only [List.cons_append, List.append_assoc] at ih ⊢
        rw [ih]

theorem xorCodes_xorCodes (l : List Nat) : xorCodes (xorCodes l) = l := by
  have hstep : ∀ c : Nat, (c ^^^ 42) ^^^ 42 = c := fun c => by
    rw [Nat.xor_assoc, Nat.xor_self, Nat.xor_zero]
  simp [xorCodes, List.map_map, Function.comp_def, hstep]

theorem xorCodes_lt (l : List Nat) (h : ∀ c ∈ l, c < 256) :
    ∀ c ∈ xorCodes l, c < 256 := by
  intro c hc
  simp only [xorCodes, List.mem_map] at hc
  obtain ⟨a, ha, rfl⟩ := hc
  have h256 : (256 : Nat) = 2 ^ 8 := by norm_num
  rw [h256]
  exact Nat.xor_lt_two_pow (h256 ▸ h a ha) (by norm_num)

theorem xorCodes_lt_rev (l : List Nat) (h : ∀ c ∈ xorCodes l, c < 256) :
    ∀ c ∈ l, c < 256 := by
  have := xorCodes_lt (xorCodes l) h
  rw [xorCodes_xorCodes] at this
  exact this

end RPAK

namespace RPAK

theorem b64CharDec_b64Char : ∀ n < 64, b64CharDec (b64Char n) = some n := by decide

theorem b64Char_ne_61 : ∀ n < 64, b64Char n ≠ 61 := by decide

theorem b64Decode_chunk (s1 s2 s3 s4 : Nat) (h1 : s1 < 64) (h2 : s2 < 64)
    (h3 : s3 < 64) (h4 : s4 < 64) (rest : List Nat) :
    b64Decode (b64Char s1 :: b64Char s2 :: b64Char s3 :: b64Char s4 :: rest) =
      (b64Decode rest).map
        (fun bs => (s1 * 4 + s2 / 16) :: (s2 % 16 * 16 + s3 / 4) :: (s3 % 4 * 64 + s4) :: bs) := by
  rw [b64Decode, b64CharDec_b64Char _ h1, b64CharDec_b64Char _ h2]
  simp [b64Char_ne_61 _ h3, b64Char_ne_61 _ h4,
    b64CharDec_b64Char _ h3, b64CharDec_b64Char _ h4]

theorem b64Decode_b64Encode : ∀ l : List Nat, (∀ c ∈ l, c < 256) →
    b64Decode (b64Encode l) = some l
  | [], _ => by simp [b64Encode, b64Decode]
  | [a], h => by
    have ha : a < 256 := h a (by simp)
    rw [b64Encode, b64Decode, b64CharDec_b64Char _ (by omega), b64CharDec_b64Char _ (by omega)]
    simp only [and_self, reduceIte, Option.some.injEq, List.cons.injEq, and_true]
    omega
  | [a, b], h => by
    have ha : a < 256 := h a (by simp)
    have hb : b < 256 := h b (by simp)
    rw [b64Encode, b64Decode, b64CharDec_b64Char _ (by omega), b64CharDec_b64Char _ (by omega)]
    simp only [b64Char_ne_61 _ (show b % 16 * 4 < 64 by omega),
      b64CharDec_b64Char _ (show b % 16 * 4 < 64 by omega), if_false, reduceIte,
      Option.some.injEq, List.cons.injEq, and_true]
    omega
  | a :: b :: c :: rest, h => by
    have ha : a < 256 := h a (by simp)
    have hb : b < 256 := h b (by simp)
    have hc : c < 256 := h c (by simp)
    rw [b64Encode, b64Decode_chunk _ _ _ _ (by omega) (by omega) (by omega) (by omega)]
    rw [b64Decode_b64Encode rest (fun x hx => h x (by simp [hx]))]
    simp only [Option.map_some', Option.some.injEq, List.cons.injEq, and_true]
    omega

theorem encodeToBase64_eq (s : List Nat) (h : ∀ c ∈ s, c < 256) :
    encodeToBase64 s = some (b64Encode (xorCodes s)) := by
  rw [encodeToBase64, btoa, if_pos]
  rw [List.all_eq_true]
  intro c hc
  exact decide_eq_true (xorCodes_lt s h c hc)

theorem decodeFromBase64_b64Encode_xor (s : List Nat) (h : ∀ c ∈ s, c < 256) :
    decodeFromBase64 (b64Encode (xorCodes s)) = some s := by
  rw [decodeFromBase64, b64Decode_b64Encode _ (xorCodes_lt s h)]
  simp [xorCodes_xorCodes]

end RPAK

namespace RPAK

theorem listStartsWith_append (p x : List Nat) : listStartsWith p (p ++ x) = true := by
  induction p with
  | nil => rw [listStartsWith]
  | cons a as ih => simp [listStartsWith, ih]

theorem drop5_tag (x : List Nat) : (rpakTag ++ x).drop 5 = x := by
  simp [rpakTag]

theorem prefVal_digits (v m : Nat) (h1 : 1 ≤ v) (h2 : v ≤ 99) :
    ∀ c ∈ padTwoZero (natToString v) ++ natToString m, 48 ≤ c ∧ c ≤ 57 := by
  intro c hc
  rw [padTwoZero_natToString v h1 h2] at hc
  simp only [List.mem_append, List.mem_cons, List.not_mem_nil, or_false] at hc
  rcases hc with (hc | hc) | hc
  · have : v / 10 ≤ 9 := by omega
    omega
  · have : v % 10 < 10 := Nat.mod_lt _ (by norm_num)
    omega
  · exact natToString_digits m c hc

theorem data_lt (v m : Nat) (p : List Nat) (h1 : 1 ≤ v) (h2 : v ≤ 99)
    (hp : ∀ c ∈ p, c < 256) :
    ∀ c ∈ padTwoZero (natToString v) ++ natToString m ++ 124 :: p, c < 256 := by
  intro c hc
  simp only [List.append_assoc, List.mem_append, List.mem_cons] at hc
  rcases hc with hc | hc | hc | hc
  · have := prefVal_digits v m h1 h2 c (List.mem_append_left _ hc)
    omega
  · have := prefVal_digits v m h1 h2 c (List.mem_append_right _ hc)
    omega
  · omega
  · exact hp c hc

theorem generate_eq_mkToken (v : Nat) (p : List Nat) (e d : Nat)
    (h1 : 1 ≤ v) (h2 : v ≤ 99) (hne : p ≠ []) (hp : ∀ c ∈ p, c < 256) :
    generate v p e d = .ok (mkToken v p e d) := by
  have henc := encodeToBase64_eq
    ((padTwoZero (natToString v) ++ natToString (e + d) ++ 124 :: p).reverse) (by
      intro c hc
      rw [List.mem_reverse] at hc
      exact data_lt v (e + d) p h1 h2 hp c hc)
  rw [generate, if_neg (by omega), if_neg (by simp [hne])]
  simp only [henc]
  rfl

theorem generate_ok_bytes (v : Nat) (p : List Nat) (e d : Nat) (t : List Nat)
    (hgen : generate v p e d = .ok t) :
    1 ≤ v ∧ p ≠ [] ∧ (∀ c ∈ p, c < 256) ∧ t = mkToken v p e d := by
  rw [generate] at hgen
  by_cases hv : v < 1
  · rw [if_pos hv] at hgen
    exact absurd hgen (by simp)
  · rw [if_neg hv] at hgen
    by_cases hpe : p.length = 0
    · rw [if_pos hpe] at hgen
      exact absurd hgen (by simp)
    · rw [if_neg hpe] at hgen
      simp only [] at hgen
      rcases hb : encodeToBase64
          ((padTwoZero (natToString v) ++ natToString (e + d) ++ 124 :: p).reverse) with _ | b
      · rw [hb] at hgen
        exact absurd hgen (by simp)
      · rw [hb] at hgen
        simp only [Except.ok.injEq] at hgen
        rw [encodeToBase64, btoa] at hb
        by_cases hall : ((xorCodes ((padTwoZero (natToString v) ++ natToString (e + d) ++
            124 :: p).reverse)).all (fun c => decide (c < 256))) = true
        · have hbytes : ∀ c ∈ p, c < 256 := by
            intro c hc
            have hmem : c ∈ (padTwoZero (natToString v) ++ natToString (e + d) ++
                124 :: p).reverse := by
              rw [List.mem_reverse]
              simp [hc]
            have := xorCodes_lt_rev _ (by
              intro x hx
              have := List.all_eq_true.mp hall x hx
              exact of_decide_eq_true this) c hmem
            exact this
          refine ⟨by omega, by simpa using hpe, hbytes, ?_⟩
          rw [if_pos hall] at hb
          simp only [Option.some.injEq] at hb
          rw [← hgen, mkToken, hb]
        · rw [if_neg hall] at hb
          exact absurd hb (by simp)

end RPAK

namespace RPAK

theorem digsVal_two (a b : Nat) : digsVal [a, b] = (a - 48) * 10 + (b - 48) := by
  simp [digsVal]

theorem validate_mkToken (v : Nat) (p : List Nat) (e1 d1 e2 d2 : Nat)
    (h1 : 1 ≤ v) (h2 : v ≤ 99) (hp : ∀ c ∈ p, c < 256) :
    validate (mkToken v p e1 d1) e2 d2 =
      { valid := decide (0 ≤ (e2 : Int) - (((e1 + d1 : Nat) : Int) - (d2 : Int)) ∧
          (e2 : Int) - (((e1 + d1 : Nat) : Int) - (d2 : Int)) ≤ ((v : Nat) : Int))
        error := none
        validity := some ((v : Nat) : Int)
        keyEpoch := some (((e1 + d1 : Nat) : Int) - (d2 : Int))
        currentEpoch := some e2
        timeDifference := some ((e2 : Int) - (((e1 + d1 : Nat) : Int) - (d2 : Int)))
        payload := some p
        expired := some (decide (((v : Nat) : Int) <
          (e2 : Int) - (((e1 + d1 : Nat) : Int) - (d2 : Int))))
        notYetValid := some (decide ((e2 : Int) - (((e1 + d1 : Nat) : Int) - (d2 : Int)) < 0)) } := by
  have hpd := padTwoZero_natToString v h1 h2
  have hnopipe : ∀ c ∈ padTwoZero (natToString v) ++ natToString (e1 + d1), c ≠ 124 := by
    intro c hc
    have := prefVal_digits v (e1 + d1) h1 h2 c hc
    omega
  have hdata : ∀ c ∈ padTwoZero (natToString v) ++ natToString (e1 + d1) ++ 124 :: p, c < 256 :=
    data_lt v (e1 + d1) p h1 h2 hp
  have hdec := decodeFromBase64_b64Encode_xor
    ((padTwoZero (natToString v) ++ natToString (e1 + d1) ++ 124 :: p).reverse)
    (by
      intro c hc
      rw [List.mem_reverse] at hc
      exact hdata c hc)
  obtain ⟨q, qs, hsp⟩ : ∃ q qs, splitPipe p = q :: qs := by
    cases h : splitPipe p with
    | nil => exact absurd h (splitPipe_ne_nil p)
    | cons q qs => exact ⟨q, qs, rfl⟩
  have hsplit : splitPipe (padTwoZero (natToString v) ++ natToString (e1 + d1) ++ 124 :: p)
      = (padTwoZero (natToString v) ++ natToString (e1 + d1)) :: q :: qs := by
    rw [splitPipe_append_pipe _ p hnopipe, hsp]
  have hjoin : joinPipe (q :: qs) = p := by
    rw [← hsp, joinPipe_splitPipe]
  have htake : (padTwoZero (natToString v) ++ natToString (e1 + d1)).take 2
      = [v / 10 + 48, v % 10 + 48] := by
    rw [hpd]
    rfl
  have hdrop : (padTwoZero (natToString v) ++ natToString (e1 + d1)).drop 2
      = natToString (e1 + d1) := by
    rw [hpd]
    rfl
  have hdv : digsVal [v / 10 + 48, v % 10 + 48] = v := by
    rw [digsVal_two]
    omega
  have hparse1 : parseIntTen ((padTwoZero (natToString v) ++ natToString (e1 + d1)).take 2)
      = some ((v : Nat) : Int) := by
    rw [htake, parseIntTen_all_digits _ (by simp)
      (by
        intro c hc
        simp only [List.mem_cons, List.not_mem_nil, or_false] at hc
        have hv10 : v / 10 ≤ 9 := by omega
        have hv1 : v % 10 < 10 := Nat.mod_lt _ (by norm_num)
        rcases hc with hc | hc <;> omega), hdv]
  have hparse2 : parseIntTen ((padTwoZero (natToString v) ++ natToString (e1 + d1)).drop 2)
      = some ((e1 + d1 : Nat) : Int) := by
    rw [hdrop, parseIntTen_natToString]
  have hparse1b : parseIntTen [v / 10 + 48, v % 10 + 48] = some ((v : Nat) : Int) := by
    rw [← htake]
    exact hparse1
  have hparse2b : parseIntTen (natToString (e1 + d1)) = some ((e1 + d1 : Nat) : Int) :=
    parseIntTen_natToString _
  rw [mkToken, validate]
  rw [if_neg (by simp [listStartsWith_append])]
  simp only [drop5_tag, hdec, List.reverse_reverse, hsplit, htake, hdrop, hparse1, hparse2,
    hparse1b, hparse2b, hjoin]

end RPAK

namespace RPAK

theorem strCodes_tagLit : strCodes "RPAK_" = rpakTag := by decide

theorem strCodes_pipeLit : strCodes "|" = [124] := by decide

theorem validate_shape (key : List Nat) (e d : Nat) :
    (∃ msg, validate key e d = mkFail msg) ∨
    (∃ vi ke td : Int, ∃ pl : List Nat, validate key e d =
      { valid := decide (0 ≤ td ∧ td ≤ vi)
        error := none
        validity := some vi
        keyEpoch := some ke
        currentEpoch := some e
        timeDifference := some td
        payload := some pl
        expired := some (decide (vi < td))
        notYetValid := some (decide (td < 0)) }) := by
  simp only [validate]
  split
  · exact .inl ⟨_, rfl⟩
  · split
    · exact .inl ⟨_, rfl⟩
    · split
      · split
        · exact .inl ⟨_, rfl⟩
        · split
          · exact .inl ⟨_, rfl⟩
          · exact .inr ⟨_, _, _, _, rfl⟩
      · exact .inl ⟨_, rfl⟩

end RPAK

namespace RPAK

/-- Claim C1: the claim as frozen quantifies over every non-empty payload string;
it fails in the browser environment because btoa throws on any code unit
above 255 after the XOR. This closed theorem refutes the claim as stated at
the concrete payload consisting of the single code unit 8364 (euro sign),
validity 7, epoch 100, date code 2, where generate throws instead of
returning the claimed string. -/
theorem claim1_counterexample :
    ¬ (∀ (v : Nat) (p : List Nat) (e d : Nat), 1 ≤ v → v ≤ 99 → p ≠ [] →
      generate v p e d = .ok (specTokenC1 v p e d)) := by
  intro h
  have h1 := h 7 [8364] 100 2 (by norm_num) (by norm_num) (by simp)
  rw [show generate 7 [8364] 100 2 = .error .invalidCharacter from by decide] at h1
  exact Except.noConfusion h1

/-- Claim C1 amended: for every validitySeconds in [1,99], every non-empty
payload whose UTF-16 code units all fit in a byte, and every epoch and date
code, generate returns exactly the string RPAK_ ++
base64(xor42(reverse(pad2(validity) ++ decimal(epoch + dateCode) ++ pipe ++
payload))) given by the specification formula. -/
theorem claim1_generate_formula (v : Nat) (p : List Nat) (e d : Nat)
    (h1 : 1 ≤ v) (h2 : v ≤ 99) (hne : p ≠ []) (hp : ∀ c ∈ p, c < 256) :
    generate v p e d = .ok (specTokenC1 v p e d) := by
  rw [generate_eq_mkToken v p e d h1 h2 hne hp, mkToken, specTokenC1,
    strCodes_tagLit, strCodes_pipeLit, List.append_assoc _ [124] p]
  simp only [List.singleton_append]

/-- Witness for the amended C1 theorem at a concrete input. -/
theorem claim1_witness :
    generate 2 (strCodes "ok") 11 22 = .ok (specTokenC1 2 (strCodes "ok") 11 22) :=
  claim1_generate_formula 2 (strCodes "ok") 11 22 (by norm_num) (by norm_num)
    (by decide) (by decide)

/-- Claim C2: the claim as frozen quantifies over every non-empty payload string;
for a payload with a code unit above 255 generate throws (btoa), so no token
exists. This closed theorem refutes the claim as stated at the payload
consisting of the single code unit 700. -/
theorem claim2_counterexample :
    ¬ (∀ (v : Nat) (p : List Nat) (e d : Nat), 1 ≤ v → v ≤ 99 → p ≠ [] →
      ∃ t, generate v p e d = .ok t ∧ (validate t e d).payload = some p) := by
  intro h
  obtain ⟨t, ht, -⟩ := h 5 [700] 3 4 (by norm_num) (by norm_num) (by simp)
  rw [show generate 5 [700] 3 4 = .error .invalidCharacter from by decide] at ht
  exact Except.noConfusion ht

/-- Claim C2 amended: whenever generate succeeds (validity in [1,99]; success
entails the payload is non-empty with all code units below 256, including
payloads containing the pipe delimiter), validating the produced token at
any later epoch and date code recovers exactly the original payload. -/
theorem claim2_roundtrip (v : Nat) (p : List Nat) (e1 d1 e2 d2 : Nat) (t : List Nat)
    (h2 : v ≤ 99) (hgen : generate v p e1 d1 = .ok t) :
    (validate t e2 d2).payload = some p := by
  obtain ⟨h1, -, hp, rfl⟩ := generate_ok_bytes v p e1 d1 t hgen
  rw [validate_mkToken v p e1 d1 e2 d2 h1 h2 hp]

/-- Witness for the amended C2 theorem: a payload containing the pipe
delimiter round-trips. -/
theorem claim2_witness :
    (validate (mkToken 3 (strCodes "a|b") 1000 512025) 1000 512025).payload
      = some (strCodes "a|b") :=
  claim2_roundtrip 3 (strCodes "a|b") 1000 512025 1000 512025 _ (by norm_num) (by decide)

/-- Claim C3: for every validitySeconds in [1,99] and non-empty payload, if the
generated token is validated at the same instant (same epoch, same date
code), the result is valid and the reported timeDifference lies in
[0, validitySeconds]. -/
theorem claim3_immediate_valid (v : Nat) (p : List Nat) (e d : Nat) (t : List Nat)
    (h1 : 1 ≤ v) (h2 : v ≤ 99) (hne : p ≠ []) (hgen : generate v p e d = .ok t) :
    (validate t e d).valid = true ∧
    ∃ td : Int, (validate t e d).timeDifference = some td ∧ 0 ≤ td ∧ td ≤ (v : Int) := by
  obtain ⟨-, -, hp, rfl⟩ := generate_ok_bytes v p e d t hgen
  rw [validate_mkToken v p e d e d h1 h2 hp]
  constructor
  · simp only [decide_eq_true_eq]
    constructor
    · push_cast
      omega
    · push_cast
      omega
  · refine ⟨(e : Int) - (((e + d : Nat) : Int) - (d : Int)), rfl, ?_, ?_⟩
    · push_cast
      omega
    · push_cast
      omega

/-- Witness for the C3 theorem at a concrete input. -/
theorem claim3_witness :
    (validate (mkToken 3 (strCodes "Hi") 1000 512025) 1000 512025).valid = true ∧
    ∃ td : Int,
      (validate (mkToken 3 (strCodes "Hi") 1000 512025) 1000 512025).timeDifference
        = some td ∧ 0 ≤ td ∧ td ≤ (3 : Int) :=
  claim3_immediate_valid 3 (strCodes "Hi") 1000 512025 _ (by norm_num) (by norm_num)
    (by decide) (by decide)

/-- Claim C4: the claim as frozen lets the validation recompute the date code at
the current instant; when the UTC date rolls over to a smaller DDMMYYYY
integer (a month boundary), a token validated more than validitySeconds
after issue reports notYetValid rather than expired. This closed theorem
refutes the claim as stated: validity 30, issued at epoch 1000 on date code
31122025 (31 December 2025), validated 31 seconds later on date code
1012026 (1 January 2026), where expired is false. -/
theorem claim4_counterexample :
    ¬ (∀ (v : Nat) (p : List Nat) (e1 d1 e2 d2 : Nat) (t : List Nat),
      1 ≤ v → v ≤ 99 → generate v p e1 d1 = .ok t → e1 + v < e2 →
      (validate t e2 d2).expired = some true ∧ (validate t e2 d2).valid = false) := by
  intro h
  have h1 := (h 30 (strCodes "x") 1000 31122025 1031 1012026
    (mkToken 30 (strCodes "x") 1000 31122025) (by norm_num) (by norm_num) (by decide)
    (by norm_num)).1
  rw [show (validate (mkToken 30 (strCodes "x") 1000 31122025) 1031 1012026).expired
    = some false from by decide] at h1
  exact absurd h1 (by simp)

/-- Claim C4 amended: for a token produced by generate with validity in [1,99],
if more than validitySeconds whole seconds elapse and validation happens
under the same date code as generation, the verdict is expired and not
valid. -/
theorem claim4_expiry (v : Nat) (p : List Nat) (e1 d e2 : Nat) (t : List Nat)
    (h2 : v ≤ 99) (hgen : generate v p e1 d = .ok t) (helapsed : e1 + v < e2) :
    (validate t e2 d).expired = some true ∧ (validate t e2 d).valid = false := by
  obtain ⟨h1, -, hp, rfl⟩ := generate_ok_bytes v p e1 d t hgen
  rw [validate_mkToken v p e1 d e2 d h1 h2 hp]
  constructor
  · simp only [Option.some.injEq, decide_eq_true_eq]
    push_cast
    omega
  · simp only [decide_eq_false_iff_not, not_and, not_le]
    intro h0
    push_cast at h0 ⊢
    omega

/-- Witness for the amended C4 theorem at a concrete input. -/
theorem claim4_witness :
    (validate (mkToken 1 (strCodes "x") 50 7) 60 7).expired = some true ∧
    (validate (mkToken 1 (strCodes "x") 50 7) 60 7).valid = false :=
  claim4_expiry 1 (strCodes "x") 50 7 60 _ (by norm_num) (by decide) (by norm_num)

/-- Claim C9: the claim as frozen also asserts that expired and notYetValid are
never both true; that fails on the code for a crafted token whose header
parses to a negative validity, where timeDifference can be both below zero
and above the validity. This closed theorem refutes the claim as stated at
the token encoding the reversed, XOR-42 content "-5123|x", validated at
epoch 122 with date code 0: the verdict record carries no error yet reports
expired and notYetValid simultaneously. -/
theorem claim9_counterexample :
    ¬ (∀ (key : List Nat) (e d : Nat), (validate key e d).error = none →
      ∃ vi td : Int,
        (validate key e d).validity = some vi ∧
        (validate key e d).timeDifference = some td ∧
        (validate key e d).valid = decide (0 ≤ td ∧ td ≤ vi) ∧
        (validate key e d).expired = some (decide (vi < td)) ∧
        (validate key e d).notYetValid = some (decide (td < 0)) ∧
        ((validate key e d).valid = true ↔
          (validate key e d).expired = some false ∧
          (validate key e d).notYetValid = some false) ∧
        ¬ ((validate key e d).expired = some true ∧
          (validate key e d).notYetValid = some true)) := by
  intro h
  obtain ⟨vi, td, -, -, -, -, -, -, hboth⟩ :=
    h (rpakTag ++ b64Encode (xorCodes ((strCodes "-5123|x").reverse))) 122 0 (by decide)
  exact hboth ⟨by decide, by decide⟩

/-- Claim C9 amended: whenever validate reaches a time-window verdict (no
error), the record satisfies the three defining equations (valid is the
test timeDifference in [0, validity], expired is timeDifference greater
than validity, notYetValid is timeDifference negative), and valid holds
exactly when neither expired nor notYetValid does; expired and notYetValid
are mutually exclusive whenever the parsed validity is nonnegative, which
covers every token generate produces. -/
theorem claim9_coherent (key : List Nat) (e d : Nat)
    (h : (validate key e d).error = none) :
    ∃ vi td : Int,
      (validate key e d).validity = some vi ∧
      (validate key e d).timeDifference = some td ∧
      (validate key e d).valid = decide (0 ≤ td ∧ td ≤ vi) ∧
      (validate key e d).expired = some (decide (vi < td)) ∧
      (validate key e d).notYetValid = some (decide (td < 0)) ∧
      ((validate key e d).valid = true ↔
        (validate key e d).expired = some false ∧
        (validate key e d).notYetValid = some false) ∧
      (0 ≤ vi → ¬ ((validate key e d).expired = some true ∧
        (validate key e d).notYetValid = some true)) := by
  rcases validate_shape key e d with ⟨msg, hm⟩ | ⟨vi, ke, td, pl, hm⟩
  · rw [hm] at h
    exact absurd h (by simp [mkFail])
  · rw [hm]
    refine ⟨vi, td, rfl, rfl, rfl, rfl, rfl, ?_, ?_⟩
    · simp only [Option.some.injEq, decide_eq_true_eq, decide_eq_false_iff_not]
      omega
    · intro hvi
      simp only [Option.some.injEq, decide_eq_true_eq]
      omega

/-- Witness for the amended C9 theorem at a concrete validated token. -/
theorem claim9_witness :
    ∃ vi td : Int,
      (validate (mkToken 2 (strCodes "w") 5 6) 5 6).validity = some vi ∧
      (validate (mkToken 2 (strCodes "w") 5 6) 5 6).timeDifference = some td ∧
      (validate (mkToken 2 (strCodes "w") 5 6) 5 6).valid = decide (0 ≤ td ∧ td ≤ vi) ∧
      (validate (mkToken 2 (strCodes "w") 5 6) 5 6).expired = some (decide (vi < td)) ∧
      (validate (mkToken 2 (strCodes "w") 5 6) 5 6).notYetValid = some (decide (td < 0)) ∧
      ((validate (mkToken 2 (strCodes "w") 5 6) 5 6).valid = true ↔
        (validate (mkToken 2 (strCodes "w") 5 6) 5 6).expired = some false ∧
        (validate (mkToken 2 (strCodes "w") 5 6) 5 6).notYetValid = some false) ∧
      (0 ≤ vi → ¬ ((validate (mkToken 2 (strCodes "w") 5 6) 5 6).expired = some true ∧
        (validate (mkToken 2 (strCodes "w") 5 6) 5 6).notYetValid = some true)) :=
  claim9_coherent (mkToken 2 (strCodes "w") 5 6) 5 6 (by decide)

/-- Claim C5: validate never raises and always returns a result record. Three
parts: a key without the RPAK_ marker yields the failure record whose error
message names the missing marker; every result is either a failure record
(valid false, error present) or a complete verdict record (error absent);
and the RPAK_ marker followed by valid base64 of garbage yields valid false
with a structural error, for any epoch and date code. -/
theorem claim5_validate_total :
    (∀ (key : List Nat) (e d : Nat), listStartsWith rpakTag key = false →
      validate key e d = mkFail "Invalid RPAK format: Missing RPAK_ prefix") ∧
    (∀ (key : List Nat) (e d : Nat),
      ((validate key e d).valid = false ∧ (validate key e d).error.isSome = true) ∨
      (validate key e d).error = none) ∧
    (∀ e d : Nat,
      (validate (rpakTag ++ b64Encode (strCodes "garbage")) e d).valid = false ∧
      (validate (rpakTag ++ b64Encode (strCodes "garbage")) e d).error
        = some "Invalid RPAK format: Missing pipe delimiter") := by
  refine ⟨?_, ?_, ?_⟩
  · intro key e d h
    rw [validate, if_pos (by simp [h])]
  · intro key e d
    rcases validate_shape key e d with ⟨msg, hm⟩ | ⟨vi, ke, td, pl, hm⟩
    · rw [hm]
      exact .inl ⟨rfl, rfl⟩
    · rw [hm]
      exact .inr rfl
  · intro e d
    exact ⟨rfl, rfl⟩

/-- Witness for the C5 theorem: the spec example input without the marker. -/
theorem claim5_witness :
    validate (strCodes "not-a-token") 0 0
      = mkFail "Invalid RPAK format: Missing RPAK_ prefix" :=
  claim5_validate_total.1 (strCodes "not-a-token") 0 0 (by decide)

end RPAK

namespace TaxLookupAPI

open RPAK (strCodes isJsWs)

theorem dropWhile_append_of_all {p : Nat → Bool} (w s : List Nat)
    (hw : ∀ c ∈ w, p c = true) : (w ++ s).dropWhile p = s.dropWhile p := by
  induction w with
  | nil => simp
  | cons a as ih =>
    rw [List.cons_append, List.dropWhile_cons, if_pos (hw a (by simp))]
    exact ih (fun c hc => hw c (by simp [hc]))

theorem trimRight_append_ws (s w : List Nat) (hw : ∀ c ∈ w, isJsWs c = true) :
    ((s ++ w).reverse.dropWhile isJsWs).reverse = (s.reverse.dropWhile isJsWs).reverse := by
  rw [List.reverse_append, dropWhile_append_of_all w.reverse _ (by
    intro c hc
    rw [List.mem_reverse] at hc
    exact hw c hc)]

theorem jsTrim_pad (w1 s w2 : List Nat) (h1 : ∀ c ∈ w1, isJsWs c = true)
    (h2 : ∀ c ∈ w2, isJsWs c = true) : jsTrim (w1 ++ s ++ w2) = jsTrim s := by
  rw [jsTrim, jsTrim]
  rw [List.append_assoc, dropWhile_append_of_all w1 _ h1]
  cases hds : s.dropWhile isJsWs with
  | nil =>
    have hsall : ∀ c ∈ s, isJsWs c = true := List.dropWhile_eq_nil_iff.mp hds
    have hall : (s ++ w2).dropWhile isJsWs = [] := by
      rw [List.dropWhile_eq_nil_iff]
      intro x hx
      rcases List.mem_append.mp hx with hx | hx
      · exact hsall x hx
      · exact h2 x hx
    rw [hall]
  | cons c t =>
    have hne : (s ++ w2).dropWhile isJsWs = (c :: t) ++ w2 := by
      rw [List.dropWhile_append, hds]
      simp
    rw [hne]
    exact trimRight_append_ws (c :: t) w2 h2

theorem searchByKeywords_trim_inv (s w1 w2 : List Nat)
    (h1 : ∀ c ∈ w1, isJsWs c = true) (h2 : ∀ c ∈ w2, isJsWs c = true) :
    searchByKeywords (w1 ++ s ++ w2) = searchByKeywords s := by
  rw [searchByKeywords, searchByKeywords, jsTrim_pad w1 s w2 h1 h2]
  by_cases hc : (jsTrim s).length = 0
  · rw [if_pos (Or.inr hc), if_pos (Or.inr hc)]
  · have hs : s ≠ [] := by
      intro h
      subst h
      simp [jsTrim] at hc
    have hcond1 : ¬ (w1 ++ s ++ w2 = [] ∨ (jsTrim s).length = 0) := by
      rintro (h | h)
      · exact hs (List.append_eq_nil.mp (List.append_eq_nil.mp h).1).2
      · exact hc h
    have hcond2 : ¬ (s = [] ∨ (jsTrim s).length = 0) := by
      rintro (h | h)
      · exact hs h
      · exact hc h
    rw [if_neg hcond1, if_neg hcond2]

theorem getHierarchy_trim_inv (s w1 w2 : List Nat)
    (h1 : ∀ c ∈ w1, isJsWs c = true) (h2 : ∀ c ∈ w2, isJsWs c = true) :
    getHierarchy (w1 ++ s ++ w2) = getHierarchy s := by
  rw [getHierarchy, getHierarchy, jsTrim_pad w1 s w2 h1 h2]
  by_cases hc : (jsTrim s).length = 0
  · rw [if_pos (Or.inr hc), if_pos (Or.inr hc)]
  · have hs : s ≠ [] := by
      intro h
      subst h
      simp [jsTrim] at hc
    have hcond1 : ¬ (w1 ++ s ++ w2 = [] ∨ (jsTrim s).length = 0) := by
      rintro (h | h)
      · exact hs (List.append_eq_nil.mp (List.append_eq_nil.mp h).1).2
      · exact hc h
    have hcond2 : ¬ (s = [] ∨ (jsTrim s).length = 0) := by
      rintro (h | h)
      · exact hs h
      · exact hc h
    rw [if_neg hcond1, if_neg hcond2]

theorem getTaxInfo_trim_inv (s w1 w2 : List Nat)
    (h1 : ∀ c ∈ w1, isJsWs c = true) (h2 : ∀ c ∈ w2, isJsWs c = true) :
    getTaxInfo (w1 ++ s ++ w2) = getTaxInfo s := by
  rw [getTaxInfo, getTaxInfo, jsTrim_pad w1 s w2 h1 h2]
  by_cases hc : (jsTrim s).length = 0
  · rw [if_pos (Or.inr hc), if_pos (Or.inr hc)]
  · have hs : s ≠ [] := by
      intro h
      subst h
      simp [jsTrim] at hc
    have hcond1 : ¬ (w1 ++ s ++ w2 = [] ∨ (jsTrim s).length = 0) := by
      rintro (h | h)
      · exact hs (List.append_eq_nil.mp (List.append_eq_nil.mp h).1).2
      · exact hc h
    have hcond2 : ¬ (s = [] ∨ (jsTrim s).length = 0) := by
      rintro (h | h)
      · exact hs h
      · exact hc h
    rw [if_neg hcond1, if_neg hcond2]

theorem getHierarchy_err (c : List Nat)
    (hc : jsTrim c = [] ∨ hsnFormatOk (jsTrim c) = false) :
    ∃ m, getHierarchy c = .error m := by
  by_cases h0 : c = [] ∨ (jsTrim c).length = 0
  · exact ⟨_, by rw [getHierarchy, if_pos h0]⟩
  · have hfmt : hsnFormatOk (jsTrim c) = false := by
      rcases hc with hc | hc
      · exact absurd (Or.inr (by rw [hc]; rfl)) h0
      · exact hc
    exact ⟨_, by rw [getHierarchy, if_neg h0, if_pos (by simp [hfmt])]⟩

theorem getTaxInfo_err (c : List Nat)
    (hc : jsTrim c = [] ∨ hsnFormatOk (jsTrim c) = false) :
    ∃ m, getTaxInfo c = .error m := by
  by_cases h0 : c = [] ∨ (jsTrim c).length = 0
  · exact ⟨_, by rw [getTaxInfo, if_pos h0]⟩
  · have hfmt : hsnFormatOk (jsTrim c) = false := by
      rcases hc with hc | hc
      · exact absurd (Or.inr (by rw [hc]; rfl)) h0
      · exact hc
    exact ⟨_, by rw [getTaxInfo, if_neg h0, if_pos (by simp [hfmt])]⟩

end TaxLookupAPI

namespace TaxLookupAPI

open RPAK (strCodes isJsWs)

/-- Claim C7: each convenience method validates its input before any network
request is built. searchByKeywords throws InvalidArgument for every empty
or whitespace-only query; getHierarchy and getTaxInfo throw InvalidArgument
for every code whose trimmed form is empty or fails the 4-to-8-digit
pattern (such as 12a), and a conforming code such as 1234 proceeds to the
request URL. A thrown error means no request value is produced. -/
theorem claim7_input_validation :
    (∀ q : List Nat, jsTrim q = [] →
      searchByKeywords q = .error "Search query cannot be empty") ∧
    (∀ c : List Nat, jsTrim c = [] ∨ hsnFormatOk (jsTrim c) = false →
      (∃ m, getHierarchy c = .error m) ∧ (∃ m, getTaxInfo c = .error m)) ∧
    getHierarchy (strCodes "12a") = .error "Invalid HSN code format. Must be 4-8 digits." ∧
    getTaxInfo (strCodes "12a") = .error "Invalid HSN code format. Must be 4-8 digits." ∧
    getHierarchy (strCodes "1234")
      = .ok (apiBaseUrl ++ strCodes "/search/hsn/" ++ strCodes "1234") ∧
    getTaxInfo (strCodes "1234")
      = .ok (apiBaseUrl ++ strCodes "/search/hsn/" ++ strCodes "1234" ++ strCodes "/taxes") := by
  refine ⟨?_, ?_, by decide, by decide, by decide, by decide⟩
  · intro q hq
    rw [searchByKeywords, if_pos (Or.inr (by rw [hq]; rfl))]
  · intro c hc
    exact ⟨getHierarchy_err c hc, getTaxInfo_err c hc⟩

/-- Witness for the C7 theorem: a whitespace-only query and the code 12a
both fail with InvalidArgument. -/
theorem claim7_witness :
    searchByKeywords [32, 32] = .error "Search query cannot be empty" ∧
    (∃ m, getHierarchy [49, 50, 97] = .error m) :=
  ⟨claim7_input_validation.1 [32, 32] (by decide),
   (claim7_input_validation.2.1 [49, 50, 97] (Or.inr (by decide))).1⟩

/-- Claim C8: getCompleteHSNInfo joins the outcomes of the hierarchy call and the
tax call; if either leg fails the join fails with the fixed wrapper message
around the failed leg, and if both succeed it resolves to the merged record
carrying both data parts and the hierarchy meta extended with the tax
request id. The two legs are issued under one Promise.all join, embedded
here as a function of the pair of leg outcomes. -/
theorem claim8_complete_info (hier tax : Except String ApiResponse) :
    (∀ e, hier = .error e →
      getCompleteHSNInfo hier tax = .error ("Failed to get complete HSN info: " ++ e)) ∧
    (∀ e hv, hier = .ok hv → tax = .error e →
      getCompleteHSNInfo hier tax = .error ("Failed to get complete HSN info: " ++ e)) ∧
    (∀ hv tv, hier = .ok hv → tax = .ok tv →
      getCompleteHSNInfo hier tax = .ok
        { success := true
          hierarchy := hv.data
          taxInfo := tv.data
          meta := { base := hv.meta, tax_request_id := tv.meta.request_id } }) := by
  refine ⟨?_, ?_, ?_⟩
  · intro e he
    subst he
    rfl
  · intro e hv hh ht
    subst hh
    subst ht
    rfl
  · intro hv tv hh ht
    subst hh
    subst ht
    rfl

/-- Witness for the C8 theorem on concrete leg outcomes. -/
theorem claim8_witness :
    getCompleteHSNInfo (Except.error "boom")
        (Except.ok { data := [1], meta := { request_id := [2], rest := [] } })
      = .error ("Failed to get complete HSN info: " ++ "boom") ∧
    getCompleteHSNInfo (Except.ok { data := [1], meta := { request_id := [2], rest := [] } })
        (Except.ok { data := [3], meta := { request_id := [4], rest := [] } })
      = .ok { success := true
              hierarchy := [1]
              taxInfo := [3]
              meta := { base := { request_id := [2], rest := [] }, tax_request_id := [4] } } :=
  ⟨(claim8_complete_info (Except.error "boom")
      (Except.ok { data := [1], meta := { request_id := [2], rest := [] } })).1 "boom" rfl,
   (claim8_complete_info (Except.ok { data := [1], meta := { request_id := [2], rest := [] } })
      (Except.ok { data := [3], meta := { request_id := [4], rest := [] } })).2.2 _ _ rfl rfl⟩

/-- Claim C10: searchByKeywords, getHierarchy and getTaxInfo are invariant under
surrounding JS whitespace: wrapping the input in leading and trailing
whitespace leaves the outcome (the thrown error or the built request URL)
unchanged. -/
theorem claim10_trim_invariant (s w1 w2 : List Nat)
    (h1 : ∀ c ∈ w1, isJsWs c = true) (h2 : ∀ c ∈ w2, isJsWs c = true) :
    searchByKeywords (w1 ++ s ++ w2) = searchByKeywords s ∧
    getHierarchy (w1 ++ s ++ w2) = getHierarchy s ∧
    getTaxInfo (w1 ++ s ++ w2) = getTaxInfo s :=
  ⟨searchByKeywords_trim_inv s w1 w2 h1 h2,
   getHierarchy_trim_inv s w1 w2 h1 h2,
   getTaxInfo_trim_inv s w1 w2 h1 h2⟩

/-- Witness for the C10 theorem: the code 1234 wrapped in spaces behaves
exactly as 1234. -/
theorem claim10_witness :
    searchByKeywords ([32] ++ strCodes "1234" ++ [32]) = searchByKeywords (strCodes "1234") ∧
    getHierarchy ([32] ++ strCodes "1234" ++ [32]) = getHierarchy (strCodes "1234") ∧
    getTaxInfo ([32] ++ strCodes "1234" ++ [32]) = getTaxInfo (strCodes "1234") :=
  claim10_trim_invariant (strCodes "1234") [32] [32] (by decide) (by decide)

end TaxLookupAPI

namespace RPAK

/-- Claim C6: the claim as frozen says generate raises InvalidArgument whenever
validitySeconds is not a positive integer; the source only checks that the
value is of number type and not less than one, so the non-integer number
3/2 (that is, 1.5) with a valid payload passes both guards. This closed
theorem refutes the claim as stated at that input. -/
theorem claim6_counterexample :
    ¬ (∀ (vv pv : JSValue),
      ((¬ ∃ n : Nat, 1 ≤ n ∧ vv = JSValue.num (some (n : ℚ))) →
        (generateArgCheck vv pv).isSome = true) ∧
      ((¬ ∃ s, pv = JSValue.str s ∧ s ≠ []) → (generateArgCheck vv pv).isSome = true) ∧
      ((∃ n : Nat, 1 ≤ n ∧ vv = JSValue.num (some (n : ℚ))) →
        (∃ s, pv = JSValue.str s ∧ s ≠ []) → generateArgCheck vv pv = none)) := by
  intro h
  have h1 := (h (JSValue.num (some ((3 : ℚ) / 2))) (JSValue.str [120])).1
  have h2 : ¬ ∃ n : Nat, 1 ≤ n ∧
      JSValue.num (some ((3 : ℚ) / 2)) = JSValue.num (some (n : ℚ)) := by
    rintro ⟨n, -, hn⟩
    simp only [JSValue.num.injEq, Option.some.injEq] at hn
    have h3 : (2 : ℚ) * n = 3 := by
      rw [← hn]
      norm_num
    have h4 : 2 * n = 3 := by exact_mod_cast h3
    omega
  have h5 := h1 h2
  rw [show generateArgCheck (JSValue.num (some ((3 : ℚ) / 2))) (JSValue.str [120]) = none
    from by norm_num [generateArgCheck, jsNumLtOne]] at h5
  exact absurd h5 (by simp)

/-- Claim C6 amended: generate raises InvalidArgument exactly when
validitySeconds is not of number type or is a number comparing less than
one (NaN comparisons are false, so NaN passes), or when payload is not a
string or is the empty string; any number at least one is accepted, integer
or not. -/
theorem claim6_arg_check (vv pv : JSValue) :
    generateArgCheck vv pv = none ↔
      (∃ x, vv = JSValue.num x ∧ jsNumLtOne x = false) ∧
      (∃ s, pv = JSValue.str s ∧ s ≠ []) := by
  cases vv with
  | num x =>
    by_cases hx : jsNumLtOne x
    · simp [generateArgCheck, hx]
    · cases pv with
      | str s =>
        by_cases hs : s.length = 0
        · simp [generateArgCheck, hx, hs, List.length_eq_zero.mp hs]
        · simp only [generateArgCheck, hx, if_false, hs, Bool.false_eq_true, reduceIte]
          constructor
          · intro
            exact ⟨⟨x, rfl, by simp [hx]⟩, s, rfl, by
              intro h
              exact hs (by rw [h]; rfl)⟩
          · intro
            trivial
      | num y => simp [generateArgCheck, hx]
      | boolean b => simp [generateArgCheck, hx]
      | undef => simp [generateArgCheck, hx]
      | nullv => simp [generateArgCheck, hx]
      | obj => simp [generateArgCheck, hx]
  | str s => simp [generateArgCheck]
  | boolean b => simp [generateArgCheck]
  | undef => simp [generateArgCheck]
  | nullv => simp [generateArgCheck]
  | obj => simp [generateArgCheck]

end RPAK
